import Mathlib

/-!
Shallow embedding of the OBS source-search plugin's indexing and query core
(`src/source-item.cpp`, `src/source-item.hpp`, `src/source-search-dock.cpp`).

The host object graph (OBS) is modelled by a `Graph` value: an object store
`objs` resolving pointers (`Nat`) to source data, the top-level enumeration
order, per-source filter lists, per-scene child lists, the main-scene list
used for vertical-canvas detection, and the host's type display-name lookup.
All collection operations are translated branch by branch from the C++.
-/

/-- `obs_source_type` as used by the plugin (`OBS_SOURCE_TYPE_*`). -/
inductive ObsSourceType where
  | input
  | filter
  | transition
  | scene
  deriving DecidableEq, Repr

/-- `enum class SourceClass` from `source-item.hpp`. -/
inductive SourceClass where
  | Source
  | Scene
  | Group
  | Filter
  deriving DecidableEq, Repr

/-- The host-side data of one live `obs_source_t`.  `uuid`, `name` and
`typeId` are `Option` because the corresponding OBS getters may return
null pointers. -/
structure ObsSource where
  uuid : Option String
  name : Option String
  typeId : Option String
  stype : ObsSourceType
  isScene : Bool
  isGroup : Bool
  deriving DecidableEq, Repr

/-- The externally-owned object graph.  Pointers are `Nat`; `objs` is weak
reference resolution (`obs_weak_source_get_source`): `none` means the object
has been destroyed. -/
structure Graph where
  objs : Nat → Option ObsSource
  topLevel : List Nat
  filters : Nat → List Nat
  children : Nat → List Nat
  sceneCast : Nat → Bool
  mainScenes : List Nat
  typeDisplay : String → Option String

/-- `class SourceItem` (its stored fields). -/
structure SourceItem where
  weakSource : Nat
  sourceClass : SourceClass
  parentScenes : List String
  parentSourceName : String
  cachedTypeId : String
  deriving DecidableEq, Repr

/-- `class SourceCollection` (its stored fields).  `sourcesByUUID` maps a
UUID to the index of the item in `sources` (the C++ stores a pointer to the
item). -/
structure SourceCollection where
  sources : List SourceItem
  sourcesByUUID : List (String × Nat)
  discoveredTypes : List (String × String)
  deriving DecidableEq, Repr

/-- C `tolower` on the ASCII range (the lambda in `ContainsCaseInsensitive`). -/
def cLower (ch : Char) : Char :=
  if 'A' ≤ ch ∧ ch ≤ 'Z' then Char.ofNat (ch.toNat + 32) else ch

/-- Plain byte-wise "needle occurs at the start of hay" (for `strstr`). -/
def startsWithChars : List Char → List Char → Bool
  | [], _ => true
  | _ :: _, [] => false
  | a :: as, b :: bs => a == b && startsWithChars as bs

/-- C `strstr(hay, needle) != nullptr`. -/
def containsSub (hay needle : List Char) : Bool :=
  startsWithChars needle hay ||
    match hay with
    | [] => false
    | _ :: t => containsSub t needle

/-- Case-insensitive "needle occurs at the start of hay". -/
def ciStartsWith : List Char → List Char → Bool
  | [], _ => true
  | _ :: _, [] => false
  | n :: ns, h :: hs => cLower h == cLower n && ciStartsWith ns hs

/-- Case-insensitive substring occurrence (the `std::search` call). -/
def ciContains (hay needle : List Char) : Bool :=
  ciStartsWith needle hay ||
    match hay with
    | [] => false
    | _ :: t => ciContains t needle

/-- `ContainsCaseInsensitive` from `source-item.cpp`. -/
def ContainsCaseInsensitive (haystack needle : String) : Bool :=
  if needle = "" then true
  else if haystack = "" then false
  else ciContains haystack.data needle.data

/-- The static `SOURCE_TYPE_NAMES` table. -/
def SOURCE_TYPE_NAMES : List (String × String) :=
  [ ("scene", "Scene"),
    ("group", "Group"),
    ("image_source", "Image"),
    ("color_source", "Color Source"),
    ("color_source_v3", "Color Source v3"),
    ("slideshow", "Image Slide Show"),
    ("browser_source", "Browser"),
    ("ffmpeg_source", "Media Source"),
    ("vlc_source", "VLC Video Source"),
    ("text_gdiplus", "Text (GDI+)"),
    ("text_gdiplus_v2", "Text (GDI+) v2"),
    ("text_gdiplus_v3", "Text (GDI+) v3"),
    ("text_ft2_source", "Text (FreeType 2)"),
    ("text_ft2_source_v2", "Text (FreeType 2) v2"),
    ("monitor_capture", "Display Capture"),
    ("window_capture", "Window Capture"),
    ("game_capture", "Game Capture"),
    ("dshow_input", "Video Capture Device"),
    ("wasapi_input_capture", "Audio Input Capture"),
    ("wasapi_output_capture", "Audio Output Capture"),
    ("pulse_input_capture", "Audio Input Capture (PulseAudio)"),
    ("pulse_output_capture", "Audio Output Capture (PulseAudio)"),
    ("ndi_source", "NDI Source"),
    ("obs_stinger_transition", "Stinger") ]

/-- Free function `GetTypeDisplayName`: static table, then host display
name (non-empty), then the raw tag. -/
def GetTypeDisplayName (g : Graph) (typeId : String) : String :=
  match SOURCE_TYPE_NAMES.lookup typeId with
  | some n => n
  | none =>
    match g.typeDisplay typeId with
    | some d => if d = "" then typeId else d
    | none => typeId

/-- The classification logic of the `SourceItem` constructor. -/
def classify (s : ObsSource) : SourceClass :=
  if s.stype = ObsSourceType.filter then SourceClass.Filter
  else if s.isScene then SourceClass.Scene
  else if s.isGroup then SourceClass.Group
  else SourceClass.Source

/-- The `SourceItem` constructor applied to a resolvable (non-null) source. -/
def mkSourceItem (p : Nat) (s : ObsSource) : SourceItem :=
  { weakSource := p
    sourceClass := classify s
    parentScenes := []
    parentSourceName := ""
    cachedTypeId := s.typeId.getD "" }

/-- `SourceItem::GetSource` (weak-reference resolution). -/
def GetSource (g : Graph) (it : SourceItem) : Option ObsSource :=
  g.objs it.weakSource

/-- `SourceItem::GetName`. -/
def GetName (g : Graph) (it : SourceItem) : String :=
  match GetSource g it with
  | none => ""
  | some s => s.name.getD ""

/-- `SourceItem::GetUUID`. -/
def GetUUID (g : Graph) (it : SourceItem) : String :=
  match GetSource g it with
  | none => ""
  | some s => s.uuid.getD ""

/-- The UUID the live object reports, kept optional (for null-UUID
reasoning). -/
def srcUuid (g : Graph) (it : SourceItem) : Option String :=
  (GetSource g it).bind ObsSource.uuid

/-- `SourceItem::IsValid`. -/
def IsValid (g : Graph) (it : SourceItem) : Bool :=
  (GetSource g it).isSome

/-- `SourceItem::IsFilter`. -/
def IsFilter (it : SourceItem) : Bool :=
  decide (it.sourceClass = SourceClass.Filter)

/-- `SourceItem::IsScene`. -/
def IsScene (it : SourceItem) : Bool :=
  decide (it.sourceClass = SourceClass.Scene)

/-- `SourceItem::IsGroup`. -/
def IsGroup (it : SourceItem) : Bool :=
  decide (it.sourceClass = SourceClass.Group)

/-- `SourceItem::IsVerticalCanvas`: a scene not in the frontend main scene
list. -/
def IsVerticalCanvas (g : Graph) (it : SourceItem) : Bool :=
  if it.sourceClass = SourceClass.Scene then
    match GetSource g it with
    | none => false
    | some _ => ! g.mainScenes.contains it.weakSource
  else false

/-- `SourceItem::GetDisplayName`: `(H) `/`(V) ` annotation for scenes. -/
def GetDisplayName (g : Graph) (it : SourceItem) : String :=
  let name := GetName g it
  if name = "" then name
  else if it.sourceClass = SourceClass.Scene then
    (if IsVerticalCanvas g it then "(V) " else "(H) ") ++ name
  else name

/-- `SourceItem::MatchesSearch` (name only). -/
def MatchesSearch (g : Graph) (it : SourceItem) (searchText : String) : Bool :=
  if searchText = "" then true
  else ContainsCaseInsensitive (GetName g it) searchText

/-- `SourceItem::MatchesType`. -/
def MatchesType (it : SourceItem) (typeFilterArg : String) : Bool :=
  if typeFilterArg = "" ∨ typeFilterArg = "all" then true
  else decide (it.cachedTypeId = typeFilterArg)

/-- Structurally recursive byte/codepoint lexicographic comparison,
modelling `std::string::operator<` (proved equivalent to `String.lt`
below). -/
def listLt : List Char → List Char → Bool
  | _, [] => false
  | [], _ :: _ => true
  | a :: as, b :: bs =>
    if a < b then true
    else if b < a then false
    else listLt as bs

/-- `std::string::operator<`. -/
def strLt (a b : String) : Bool := listLt a.data b.data

/-- Ordered-unique insertion, modelling `std::set<std::string>::insert`. -/
def insertSorted (s : String) : List String → List String
  | [] => [s]
  | x :: xs =>
    if strLt s x then s :: x :: xs
    else if s = x then x :: xs
    else x :: insertSorted s xs

/-- `SourceItem::AddParentScene`. -/
def AddParentScene (sceneName : String) (it : SourceItem) : SourceItem :=
  { it with parentScenes := insertSorted sceneName it.parentScenes }

/-- `std::map<std::string, SourceItem*>::find` on the UUID map. -/
def lookupIdx (m : List (String × Nat)) (u : String) : Option Nat :=
  match m with
  | [] => none
  | kv :: rest => if kv.fst = u then some kv.snd else lookupIdx rest u

/-- In-place update of the item a UUID-map entry points to. -/
def modifyIdx {α : Type} (f : α → α) : List α → Nat → List α
  | [], _ => []
  | x :: xs, 0 => f x :: xs
  | x :: xs, Nat.succ n => x :: modifyIdx f xs n

/-- `SourceCollection::Clear`. -/
def Clear (_c : SourceCollection) : SourceCollection :=
  { sources := [], sourcesByUUID := [], discoveredTypes := [] }

/-- The common tail of `AddSource`/`AddFilter`: register the discovered
type, record the UUID (when non-null), and append the item. -/
def pushNew (g : Graph) (c : SourceCollection) (item : SourceItem)
    (uuidOpt : Option String) (typeId : String) : SourceCollection :=
  { sources := c.sources ++ [item]
    sourcesByUUID :=
      match uuidOpt with
      | some u => c.sourcesByUUID ++ [(u, c.sources.length)]
      | none => c.sourcesByUUID
    discoveredTypes :=
      if (c.discoveredTypes.lookup typeId).isSome then c.discoveredTypes
      else c.discoveredTypes ++ [(typeId, GetTypeDisplayName g typeId)] }

/-- `SourceCollection::AddSource`, check for check. -/
def AddSource (g : Graph) (c : SourceCollection) (p : Nat) : SourceCollection :=
  match g.objs p with
  | none => c
  | some s =>
    if s.stype = ObsSourceType.filter ∨ s.stype = ObsSourceType.transition then c
    else if s.name.getD "" = "" then c
    else
      match s.typeId with
      | none => c
      | some typeId =>
        if typeId = "audio_monitor" then c
        else if containsSub typeId.data "_wrapper_".data then c
        else if containsSub (s.name.getD "").data "(Stinger)".data then c
        else if typeId = "audio_line" then c
        else if (match s.uuid with
                 | some u => (lookupIdx c.sourcesByUUID u).isSome
                 | none => false) then c
        else if (g.objs p).isSome then
          pushNew g c (mkSourceItem p s) s.uuid typeId
        else c

/-- `SourceCollection::AddFilter`. -/
def AddFilter (g : Graph) (c : SourceCollection) (p : Nat)
    (parentName : String) : SourceCollection :=
  match g.objs p with
  | none => c
  | some s =>
    if s.name.getD "" = "" then c
    else
      match s.typeId with
      | none => c
      | some typeId =>
        if typeId = "audio_monitor" then c
        else if (match s.uuid with
                 | some u => (lookupIdx c.sourcesByUUID u).isSome
                 | none => false) then c
        else if (g.objs p).isSome then
          pushNew g c { mkSourceItem p s with parentSourceName := parentName }
            s.uuid typeId
        else c

/-- `SourceCollection::LinkFilters`: iterate a snapshot of the source list,
adding each source's filters with the parent's name. -/
def LinkFilters (g : Graph) (c : SourceCollection) : SourceCollection :=
  c.sources.foldl
    (fun acc it =>
      match g.objs it.weakSource with
      | none => acc
      | some _ =>
        (g.filters it.weakSource).foldl
          (fun acc2 q => AddFilter g acc2 q (GetName g it)) acc)
    c

/-- The scene-item enumeration body of `LinkSceneItems` for one container. -/
def linkChildren (g : Graph) (sceneName : String) (kids : List Nat)
    (c : SourceCollection) : SourceCollection :=
  kids.foldl
    (fun acc q =>
      match g.objs q with
      | none => acc
      | some t =>
        match t.uuid with
        | none => acc
        | some u =>
          match lookupIdx acc.sourcesByUUID u with
          | none => acc
          | some idx =>
            { acc with sources := modifyIdx (AddParentScene sceneName) acc.sources idx })
    c

/-- `SourceCollection::LinkSceneItems`. -/
def LinkSceneItems (g : Graph) (c : SourceCollection) : SourceCollection :=
  (List.range c.sources.length).foldl
    (fun acc i =>
      match acc.sources.get? i with
      | none => acc
      | some it =>
        if IsScene it || IsGroup it then
          match g.objs it.weakSource with
          | none => acc
          | some _ =>
            if g.sceneCast it.weakSource then
              linkChildren g (GetName g it) (g.children it.weakSource) acc
            else acc
        else acc)
    c

/-- `SourceCollection::Refresh`: clear, enumerate all sources, link filters,
link scene items. -/
def Refresh (g : Graph) (c : SourceCollection) : SourceCollection :=
  LinkSceneItems g (LinkFilters g (g.topLevel.foldl (AddSource g) (Clear c)))

/-- The comparator-driven sort at the end of `SourceCollection::Search`
(`std::sort` by `GetName`), modelled as insertion sort. -/
def insertByName (g : Graph) (a : SourceItem) : List SourceItem → List SourceItem
  | [] => [a]
  | b :: bs =>
    if strLt (GetName g a) (GetName g b) then a :: b :: bs else b :: insertByName g a bs

/-- Sort a result list by raw source name. -/
def sortByName (g : Graph) : List SourceItem → List SourceItem
  | [] => []
  | a :: as => insertByName g a (sortByName g as)

/-- `SourceCollection::Search`: validity, type and text filters, then the
name sort. -/
def Search (g : Graph) (c : SourceCollection) (searchText typeFilterArg : String) :
    List SourceItem :=
  sortByName g
    (c.sources.filter
      (fun it => IsValid g it && MatchesType it typeFilterArg && MatchesSearch g it searchText))

/-- The record-selection logic of `SourceSearchDock::UpdateResults`: scope
filter plus the orphan (no parent scene) exclusion, over `Search` output. -/
def UpdateResults (g : Graph) (c : SourceCollection)
    (searchText typeFilterArg scope : String) : List SourceItem :=
  (Search g c searchText typeFilterArg).filter
    (fun it =>
      (!(scope == "sources" && IsFilter it)) &&
      (!(scope == "filters" && !(IsFilter it))) &&
      (IsFilter it || IsScene it || IsGroup it || !(it.parentScenes.isEmpty)))

/-- The observable content of one snapshot, as named by the spec:
(identity, classification, typeTag, parentContainers, attachedToName). -/
def snapshotTuples (g : Graph) (c : SourceCollection) :
    List (String × SourceClass × String × List String × String) :=
  c.sources.map
    (fun it => (GetUUID g it, it.sourceClass, it.cachedTypeId, it.parentScenes, it.parentSourceName))

/-! ### Concrete host graphs used for witnesses and counterexamples -/

/-- The empty collection (a fresh `SourceCollection`). -/
def cE : SourceCollection :=
  { sources := [], sourcesByUUID := [], discoveredTypes := [] }

/-- A main-canvas scene named `Main`. -/
def mainSceneSrc : ObsSource :=
  { uuid := some "u-main", name := some "Main", typeId := some "scene"
    stype := ObsSourceType.scene, isScene := true, isGroup := false }

/-- A capture source named `Cam1`. -/
def camSrc : ObsSource :=
  { uuid := some "u-cam", name := some "Cam1", typeId := some "dshow_input"
    stype := ObsSourceType.input, isScene := false, isGroup := false }

/-- A filter named `Blur` (attached to `Cam1` in `gW`). -/
def blurSrc : ObsSource :=
  { uuid := some "u-blur", name := some "Blur", typeId := some "color_correction"
    stype := ObsSourceType.filter, isScene := false, isGroup := false }

/-- The object store of the well-formed example graph `gW`. -/
def gWobjs : Nat → Option ObsSource := fun p =>
  if p = 1 then some mainSceneSrc
  else if p = 2 then some camSrc
  else if p = 10 then some blurSrc
  else none

/-- A well-formed example graph: scene `Main` (ptr 1) holds `Cam1` (ptr 2),
which carries filter `Blur` (ptr 10). -/
def gW : Graph :=
  { objs := gWobjs
    topLevel := [1, 2]
    filters := fun p => if p = 2 then [10] else []
    children := fun p => if p = 1 then [2] else []
    sceneCast := fun p => p == 1
    mainScenes := [1]
    typeDisplay := fun _ => none }

/-- The `Blur` record as it appears in `Refresh gW cE`. -/
def blurItem : SourceItem :=
  { weakSource := 10, sourceClass := SourceClass.Filter, parentScenes := []
    parentSourceName := "Cam1", cachedTypeId := "color_correction" }

/-- The `Cam1` record as it appears in `Refresh gW cE`. -/
def camItem : SourceItem :=
  { weakSource := 2, sourceClass := SourceClass.Source, parentScenes := ["Main"]
    parentSourceName := "", cachedTypeId := "dshow_input" }

/-- A plain record reachable from no container. -/
def orphanItem : SourceItem :=
  { weakSource := 5, sourceClass := SourceClass.Source, parentScenes := []
    parentSourceName := "", cachedTypeId := "xtype" }

/-- Graph with two sources whose host UUID is null. -/
def gC1 : Graph :=
  { objs := fun p =>
      if p = 1 then
        some { uuid := none, name := some "A", typeId := some "tA"
               stype := ObsSourceType.input, isScene := false, isGroup := false }
      else if p = 2 then
        some { uuid := none, name := some "B", typeId := some "tB"
               stype := ObsSourceType.input, isScene := false, isGroup := false }
      else none
    topLevel := [1, 2]
    filters := fun _ => []
    children := fun _ => []
    sceneCast := fun _ => false
    mainScenes := []
    typeDisplay := fun _ => none }

/-- Graph with a main scene named `Z` and a plain source named `A`. -/
def gC2 : Graph :=
  { objs := fun p =>
      if p = 1 then
        some { uuid := some "z", name := some "Z", typeId := some "scene"
               stype := ObsSourceType.scene, isScene := true, isGroup := false }
      else if p = 2 then
        some { uuid := some "a", name := some "A", typeId := some "image_source"
               stype := ObsSourceType.input, isScene := false, isGroup := false }
      else none
    topLevel := [1, 2]
    filters := fun _ => []
    children := fun _ => []
    sceneCast := fun p => p == 1
    mainScenes := [1]
    typeDisplay := fun _ => none }

/-- Graph whose only filter has the internal type tag `audio_line` and a
`(Stinger)` name. -/
def gC3 : Graph :=
  { objs := fun p =>
      if p = 1 then
        some { uuid := some "h", name := some "Host", typeId := some "image_source"
               stype := ObsSourceType.input, isScene := false, isGroup := false }
      else if p = 10 then
        some { uuid := some "f", name := some "F (Stinger)", typeId := some "audio_line"
               stype := ObsSourceType.filter, isScene := false, isGroup := false }
      else none
    topLevel := [1]
    filters := fun p => if p = 1 then [10] else []
    children := fun _ => []
    sceneCast := fun _ => false
    mainScenes := []
    typeDisplay := fun _ => none }

/-- Graph with a scene `S` directly holding a group `G` as a child. -/
def gC5 : Graph :=
  { objs := fun p =>
      if p = 1 then
        some { uuid := some "s", name := some "S", typeId := some "scene"
               stype := ObsSourceType.scene, isScene := true, isGroup := false }
      else if p = 2 then
        some { uuid := some "gg", name := some "G", typeId := some "group"
               stype := ObsSourceType.scene, isScene := false, isGroup := true }
      else none
    topLevel := [1, 2]
    filters := fun _ => []
    children := fun p => if p = 1 then [2] else []
    sceneCast := fun p => p == 1 || p == 2
    mainScenes := [1]
    typeDisplay := fun _ => none }

/-- Graph holding one main-canvas scene named `Main`. -/
def gC6 : Graph :=
  { objs := fun p =>
      if p = 1 then
        some { uuid := some "m", name := some "Main", typeId := some "scene"
               stype := ObsSourceType.scene, isScene := true, isGroup := false }
      else none
    topLevel := [1]
    filters := fun _ => []
    children := fun _ => []
    sceneCast := fun p => p == 1
    mainScenes := [1]
    typeDisplay := fun _ => none }

/-- The `Main` scene record as it appears in `Refresh gC6 cE`. -/
def sceneItemC6 : SourceItem :=
  { weakSource := 1, sourceClass := SourceClass.Scene, parentScenes := []
    parentSourceName := "", cachedTypeId := "scene" }

/-- The first null-UUID record of `Refresh gC1 cE`. -/
def itemA1 : SourceItem :=
  { weakSource := 1, sourceClass := SourceClass.Source, parentScenes := []
    parentSourceName := "", cachedTypeId := "tA" }

/-- The second null-UUID record of `Refresh gC1 cE`. -/
def itemB1 : SourceItem :=
  { weakSource := 2, sourceClass := SourceClass.Source, parentScenes := []
    parentSourceName := "", cachedTypeId := "tB" }

/-! ### Spec-level predicates and invariants -/

/-- Spec-level statement of "needle occurs in hay as a case-insensitive
substring". -/
def CISubstr (hay needle : String) : Prop :=
  ∃ pre mid post : List Char, hay.data = pre ++ mid ++ post ∧
    mid.map cLower = needle.data.map cLower

/-- Collection well-formedness maintained by the two build passes: every
item resolves (statically), its class matches its source, its source's
name is non-empty; recorded UUIDs and the UUID map agree; non-null UUIDs
are pairwise distinct; no parent scenes before linking. -/
structure CInv (g : Graph) (c : SourceCollection) : Prop where
  resolve : ∀ it ∈ c.sources, ∃ s, g.objs it.weakSource = some s ∧
    it.sourceClass = classify s ∧ s.name.getD "" ≠ ""
  recorded : ∀ it ∈ c.sources, ∀ u, srcUuid g it = some u →
    lookupIdx c.sourcesByUUID u ≠ none
  mapOK : ∀ u idx, lookupIdx c.sourcesByUUID u = some idx →
    ∃ it, c.sources.get? idx = some it ∧ srcUuid g it = some u
  distinct : (c.sources.map (srcUuid g)).Pairwise
    (fun a b => ∀ u, a = some u → b ≠ some u)
  noParents : ∀ it ∈ c.sources, it.parentScenes = []

/-- After the first (top-level) pass: no filter records, no attachment
names. -/
def Pass1Extra (c : SourceCollection) : Prop :=
  ∀ it ∈ c.sources, it.sourceClass ≠ SourceClass.Filter ∧ it.parentSourceName = ""

/-- The claim C4 invariant: attachment name present iff the record is a
filter. -/
def PsnIff (c : SourceCollection) : Prop :=
  ∀ it ∈ c.sources, (it.parentSourceName ≠ "" ↔ it.sourceClass = SourceClass.Filter)

/-- What the relationship-linking pass needs and maintains: items resolve
with matching class, the UUID map is consistent, and filter records have
no parent containers. -/
def LinkInv (g : Graph) (c : SourceCollection) : Prop :=
  (∀ it ∈ c.sources, ∃ s, g.objs it.weakSource = some s ∧ it.sourceClass = classify s) ∧
  (∀ u idx, lookupIdx c.sourcesByUUID u = some idx →
    ∃ it, c.sources.get? idx = some it ∧ srcUuid g it = some u) ∧
  (∀ it ∈ c.sources, it.sourceClass = SourceClass.Filter → it.parentScenes = [])

/-! ### Generic list helper lemmas -/

theorem foldl_preserve {α β : Type} (P : β → Prop) (f : β → α → β) (l : List α)
    (step : ∀ b a, a ∈ l → P b → P (f b a)) (b : β) (hb : P b) : P (l.foldl f b) := by
  induction l generalizing b with
  | nil => exact hb
  | cons x xs ih =>
    exact ih (fun b a ha hb => step b a (List.mem_cons_of_mem x ha) hb) (f b x)
      (step b x (List.mem_cons_self x xs) hb)

theorem lookupIdx_append_some {m m' : List (String × Nat)} {u : String} {v : Nat}
    (h : lookupIdx m u = some v) : lookupIdx (m ++ m') u = some v := by
  induction m with
  | nil => simp [lookupIdx] at h
  | cons kv rest ih =>
    rw [List.cons_append]
    unfold lookupIdx at h ⊢
    split at h
    · rename_i hk
      rw [if_pos hk]
      exact h
    · rename_i hk
      rw [if_neg hk]
      exact ih h

theorem lookupIdx_append_none {m m' : List (String × Nat)} {u : String}
    (h : lookupIdx m u = none) : lookupIdx (m ++ m') u = lookupIdx m' u := by
  induction m with
  | nil => rfl
  | cons kv rest ih =>
    rw [List.cons_append]
    have hL : lookupIdx (kv :: (rest ++ m')) u =
        if kv.fst = u then some kv.snd else lookupIdx (rest ++ m') u := rfl
    have hR : lookupIdx (kv :: rest) u =
        if kv.fst = u then some kv.snd else lookupIdx rest u := rfl
    rw [hR] at h
    rw [hL]
    split at h
    · exact absurd h (by simp)
    · rename_i hk
      rw [if_neg hk]
      exact ih h

theorem get?_append_left {α : Type} (l l' : List α) (n : Nat) (h : n < l.length) :
    (l ++ l').get? n = l.get? n := by
  induction l generalizing n with
  | nil => simp at h
  | cons x xs ih =>
    cases n with
    | zero => rfl
    | succ m => simp only [List.get?_cons_succ]; exact ih m (by simpa using h)

theorem get?_length_append {α : Type} (l : List α) (x : α) :
    (l ++ [x]).get? l.length = some x := by
  induction l with
  | nil => rfl
  | cons y ys ih => simp only [List.cons_append, List.length_cons, List.get?_cons_succ]; exact ih

theorem get?_some_lt {α : Type} (l : List α) (n : Nat) (a : α)
    (h : l.get? n = some a) : n < l.length := by
  induction l generalizing n with
  | nil => simp [List.get?] at h
  | cons x xs ih =>
    cases n with
    | zero => simp
    | succ m => simpa using ih m (by simpa using h)

theorem get?_mem' {α : Type} (l : List α) (n : Nat) (a : α)
    (h : l.get? n = some a) : a ∈ l := by
  induction l generalizing n with
  | nil => simp [List.get?] at h
  | cons x xs ih =>
    cases n with
    | zero =>
      simp only [List.get?] at h
      exact (Option.some.inj h) ▸ List.mem_cons_self x xs
    | succ m => exact List.mem_cons_of_mem x (ih m (by simpa using h))

theorem modifyIdx_map {α β : Type} (f : α → α) (h : α → β)
    (hf : ∀ x, h (f x) = h x) (l : List α) (i : Nat) :
    (modifyIdx f l i).map h = l.map h := by
  induction l generalizing i with
  | nil => rfl
  | cons x xs ih =>
    cases i with
    | zero => simp [modifyIdx, hf]
    | succ n => simp [modifyIdx, ih]

theorem get?_modifyIdx {α : Type} (f : α → α) (l : List α) (i j : Nat) :
    (modifyIdx f l i).get? j = if i = j then (l.get? j).map f else l.get? j := by
  induction l generalizing i j with
  | nil => simp [modifyIdx]
  | cons x xs ih =>
    cases i with
    | zero =>
      cases j with
      | zero => simp [modifyIdx]
      | succ m => simp [modifyIdx]
    | succ n =>
      cases j with
      | zero => simp [modifyIdx]
      | succ m => simpa [modifyIdx] using ih n m

theorem mem_modifyIdx {α : Type} (f : α → α) (l : List α) (i : Nat) (x : α)
    (hx : x ∈ modifyIdx f l i) : x ∈ l ∨ ∃ y, l.get? i = some y ∧ x = f y := by
  induction l generalizing i with
  | nil => simp [modifyIdx] at hx
  | cons a as ih =>
    cases i with
    | zero =>
      rcases List.mem_cons.mp hx with rfl | hx
      · exact Or.inr ⟨a, rfl, rfl⟩
      · exact Or.inl (List.mem_cons_of_mem a hx)
    | succ n =>
      rcases List.mem_cons.mp hx with rfl | hx
      · exact Or.inl (List.mem_cons_self _ _)
      · rcases ih n hx with h | ⟨y, hy, hxy⟩
        · exact Or.inl (List.mem_cons_of_mem a h)
        · exact Or.inr ⟨y, by simpa using hy, hxy⟩

/-! ### String comparison lemmas -/

theorem listLt_iff (l₁ l₂ : List Char) : listLt l₁ l₂ = true ↔ l₁ < l₂ := by
  induction l₁ generalizing l₂ with
  | nil =>
    cases l₂ with
    | nil =>
      simp only [listLt, Bool.false_eq_true, false_iff]
      intro hcon
      cases hcon
    | cons b bs =>
      simp only [listLt, true_iff]
      exact List.Lex.nil
  | cons a as ih =>
    cases l₂ with
    | nil =>
      simp only [listLt, Bool.false_eq_true, false_iff]
      intro hcon
      cases hcon
    | cons b bs =>
      simp only [listLt]
      split_ifs with h1 h2
      · simp only [true_iff]
        exact List.Lex.rel h1
      · simp only [Bool.false_eq_true, false_iff]
        intro hcon
        cases hcon with
        | cons h => exact absurd h2 (lt_irrefl a)
        | rel h => exact h1 h
      · have hab : a = b := le_antisymm (not_lt.mp h2) (not_lt.mp h1)
        subst hab
        rw [ih bs]
        constructor
        · intro h
          exact List.Lex.cons h
        · intro hcon
          cases hcon with
          | cons h => exact h
          | rel h => exact absurd h h1

theorem strLt_iff (a b : String) : strLt a b = true ↔ a < b := by
  rw [String.lt_iff_toList_lt]
  exact listLt_iff a.data b.data

/-! ### Sort lemmas -/

theorem mem_insertByName (g : Graph) (a : SourceItem) (l : List SourceItem) (x : SourceItem) :
    x ∈ insertByName g a l ↔ x = a ∨ x ∈ l := by
  induction l with
  | nil => simp [insertByName]
  | cons b bs ih =>
    simp only [insertByName]
    split
    · simp [List.mem_cons]
    · simp only [List.mem_cons, ih]
      tauto

theorem pairwise_insertByName (g : Graph) (a : SourceItem) (l : List SourceItem)
    (h : l.Pairwise (fun x y => ¬ GetName g y < GetName g x)) :
    (insertByName g a l).Pairwise (fun x y => ¬ GetName g y < GetName g x) := by
  induction l with
  | nil => simp [insertByName]
  | cons b bs ih =>
    rw [List.pairwise_cons] at h
    obtain ⟨hb, hbs⟩ := h
    simp only [insertByName]
    split
    · rename_i hab
      have hab' := (strLt_iff _ _).mp hab
      refine List.Pairwise.cons ?_ (List.Pairwise.cons hb hbs)
      intro x hx
      rcases List.mem_cons.mp hx with rfl | hx
      · exact lt_asymm hab'
      · intro hcon
        exact hb x hx (lt_trans hcon hab')
    · rename_i hab
      refine List.Pairwise.cons ?_ (ih hbs)
      intro x hx
      rcases (mem_insertByName g a bs x).mp hx with rfl | hx
      · exact fun hlt => hab ((strLt_iff _ _).mpr hlt)
      · exact hb x hx

theorem mem_sortByName (g : Graph) (l : List SourceItem) (x : SourceItem) :
    x ∈ sortByName g l ↔ x ∈ l := by
  induction l with
  | nil => simp [sortByName]
  | cons a as ih => simp [sortByName, mem_insertByName, ih]

theorem pairwise_sortByName (g : Graph) (l : List SourceItem) :
    (sortByName g l).Pairwise (fun x y => ¬ GetName g y < GetName g x) := by
  induction l with
  | nil => simp [sortByName]
  | cons a as ih => exact pairwise_insertByName g a _ ih

/-! ### Claim C2 — sort order of Search results -/

/-- C2 (corrected): the list returned by `Search` is sorted, under the
byte/codepoint lexicographic order, by the records' raw name (`GetName`,
without the (H)/(V) canvas annotation) — not by display name. -/
theorem search_sorted_by_raw_name (g : Graph) (c : SourceCollection)
    (searchText typeFilterArg : String) :
    (Search g c searchText typeFilterArg).Pairwise
      (fun a b => ¬ GetName g b < GetName g a) :=
  pairwise_sortByName g _

/-- C2 counterexample: on a graph with a main scene `Z` and a plain source
`A`, the `Search` output is not sorted by display name (the scene displays
as `(H) Z`, which sorts before `A`). -/
theorem search_sorted_by_display_name_cex :
    ¬ ((Search gC2 (Refresh gC2 cE) "" "").map (GetDisplayName gC2)).Pairwise
      (fun a b => ¬ b < a) := by
  have h : (Search gC2 (Refresh gC2 cE) "" "").map (GetDisplayName gC2) = ["A", "(H) Z"] := by
    decide
  rw [h]
  intro hp
  rw [List.pairwise_cons] at hp
  exact hp.1 _ (List.mem_cons_self _ _) ((strLt_iff _ _).mp (by decide))

/-! ### Claim C7 — orphan exclusion in the dock's result list -/

/-- C7 (confirmed): a record that is not a filter, scene or group and has
an empty parent-container set never appears in the dock's displayed result
list, for any search text, type filter and scope. -/
theorem orphan_excluded_from_results (g : Graph) (c : SourceCollection)
    (searchText typeFilterArg scope : String) (it : SourceItem)
    (h1 : it.sourceClass = SourceClass.Source) (h2 : it.parentScenes = []) :
    it ∉ UpdateResults g c searchText typeFilterArg scope := by
  intro hmem
  have h := (List.mem_filter.mp hmem).2
  simp [IsFilter, IsScene, IsGroup, h1, h2] at h

/-- Witness for C7 at a concrete orphan record and graph. -/
theorem orphan_excluded_from_results_witness :
    orphanItem ∉ UpdateResults gW (Refresh gW cE) "" "" "all" :=
  orphan_excluded_from_results gW (Refresh gW cE) "" "" "all" orphanItem rfl rfl

/-! ### Claim C8 — staleness exclusion in Search -/

/-- C8 (confirmed): every record returned by `Search` passes the validity
check against the graph state in effect at query time; records whose weak
back-reference no longer resolves are silently dropped. -/
theorem search_drops_stale (g : Graph) (c : SourceCollection)
    (searchText typeFilterArg : String) :
    (Search g c searchText typeFilterArg).all (fun it => IsValid g it) = true := by
  rw [List.all_eq_true]
  intro it hit
  have h1 := (mem_sortByName g _ it).mp hit
  have h2 := (List.mem_filter.mp h1).2
  simp only [Bool.and_eq_true] at h2
  exact h2.1.1

/-! ### Claim C9 — idempotent refresh -/

/-- C9 (confirmed): `Refresh` starts by clearing all collection state, so a
second `Refresh` against the unchanged graph produces a snapshot with the
same (identity, classification, typeTag, parentContainers, attachedToName)
tuples. -/
theorem refresh_idempotent_tuples (g : Graph) (c0 : SourceCollection) :
    snapshotTuples g (Refresh g (Refresh g c0)) = snapshotTuples g (Refresh g c0) := rfl

/-! ### Claim C10 — Clear postcondition -/

/-- C10 (confirmed): after `Clear` the record list, the identity lookup and
the discovered-type catalog are all empty, and `Search` returns the empty
list for every input. -/
theorem clear_postcondition (g : Graph) (c : SourceCollection)
    (searchText typeFilterArg : String) :
    (Clear c).sources = [] ∧ (Clear c).sourcesByUUID = [] ∧
    (Clear c).discoveredTypes = [] ∧ Search g (Clear c) searchText typeFilterArg = [] :=
  ⟨rfl, rfl, rfl, rfl⟩

/-! ### Claim C1 — identity uniqueness counterexample (null identities) -/

/-- C1 counterexample: with two sources whose host UUID is null, both are
added and both report the empty identity, so the snapshot's identities are
not pairwise distinct and neither object was discarded. -/
theorem refresh_identity_unique_cex :
    ((Refresh gC1 cE).sources.map (GetUUID gC1) = ["", ""]) ∧
    ¬ (∀ a ∈ (Refresh gC1 cE).sources, ∀ b ∈ (Refresh gC1 cE).sources,
        a ≠ b → GetUUID gC1 a ≠ GetUUID gC1 b) := by
  refine ⟨by decide, ?_⟩
  intro h
  have h1 : itemA1 ∈ (Refresh gC1 cE).sources := by decide
  have h2 : itemB1 ∈ (Refresh gC1 cE).sources := by decide
  exact h _ h1 _ h2 (by decide) (by decide)

/-! ### Claim C3 — effects-pass parity counterexample -/

/-- C3 counterexample: a filter whose type tag is `audio_line` and whose
name carries the `(Stinger)` convention is nevertheless added by the
effects pass, so the effects pass does not apply the first pass's
`audio_line`/`_wrapper_`/`(Stinger)` rejections. -/
theorem addFilter_checks_parity_cex :
    ¬ (∀ it ∈ (Refresh gC3 cE).sources, it.sourceClass = SourceClass.Filter →
        it.cachedTypeId ≠ "audio_line") := by
  decide

/-! ### Claim C5 — parent-set restriction counterexample -/

/-- C5 counterexample: a group held as a direct child of a scene acquires
that scene's name in its parent-container set, so container-group records
do not keep an empty parent set. -/
theorem refresh_effect_parents_empty_cex :
    ¬ (∀ it ∈ (Refresh gC5 cE).sources,
        (it.sourceClass = SourceClass.Scene ∨ it.sourceClass = SourceClass.Group ∨
         it.sourceClass = SourceClass.Filter) → it.parentScenes = []) := by
  decide

/-! ### Claim C6 — text filter counterexample (display name vs raw name) -/

/-- C6 counterexample: the scene record displays as `(H) Main`, which
contains `(h)` case-insensitively, yet the text filter rejects it (it
matches the raw name `Main` only), so `Search` returns nothing. -/
theorem matches_search_name_ci_cex :
    (Refresh gC6 cE).sources = [sceneItemC6] ∧
    ContainsCaseInsensitive (GetDisplayName gC6 sceneItemC6) "(h)" = true ∧
    MatchesSearch gC6 sceneItemC6 "(h)" = false ∧
    Search gC6 (Refresh gC6 cE) "(h)" "" = [] := by
  refine ⟨by decide, by decide, by decide, by decide⟩

/-! ### Case-insensitive matching lemmas (for C6) -/

theorem ciStartsWith_iff (n h : List Char) :
    ciStartsWith n h = true ↔
      ∃ mid post, h = mid ++ post ∧ mid.map cLower = n.map cLower := by
  induction n generalizing h with
  | nil =>
    simp only [ciStartsWith, List.map_nil, true_iff]
    exact ⟨[], h, rfl, rfl⟩
  | cons a as ih =>
    cases h with
    | nil =>
      simp only [ciStartsWith, Bool.false_eq_true, false_iff]
      rintro ⟨mid, post, heq, hmap⟩
      rcases List.append_eq_nil.mp heq.symm with ⟨rfl, -⟩
      simp at hmap
    | cons b bs =>
      simp only [ciStartsWith, Bool.and_eq_true, beq_iff_eq, ih]
      constructor
      · rintro ⟨hlow, mid, post, rfl, hmap⟩
        exact ⟨b :: mid, post, rfl, by simp [hmap, hlow]⟩
      · rintro ⟨mid, post, heq, hmap⟩
        cases mid with
        | nil => simp at hmap
        | cons m ms =>
          rw [List.cons_append] at heq
          injection heq with hb hbs
          rw [List.map_cons, List.map_cons] at hmap
          injection hmap with hm hms
          subst hb
          exact ⟨hm.symm ▸ rfl, ms, post, hbs, hms⟩

theorem ciContains_iff (h n : List Char) :
    ciContains h n = true ↔
      ∃ pre mid post, h = pre ++ mid ++ post ∧ mid.map cLower = n.map cLower := by
  induction h with
  | nil =>
    simp only [ciContains, Bool.or_eq_true, ciStartsWith_iff]
    constructor
    · rintro (⟨mid, post, heq, hmap⟩ | hfalse)
      · exact ⟨[], mid, post, by simp [heq], hmap⟩
      · simp at hfalse
    · rintro ⟨pre, mid, post, heq, hmap⟩
      have h2 := List.append_eq_nil.mp heq.symm
      have h3 := List.append_eq_nil.mp h2.1
      exact Or.inl ⟨[], [], rfl, h3.2 ▸ hmap⟩
  | cons c cs ih =>
    simp only [ciContains, Bool.or_eq_true, ciStartsWith_iff, ih]
    constructor
    · rintro (⟨mid, post, heq, hmap⟩ | ⟨pre, mid, post, heq, hmap⟩)
      · exact ⟨[], mid, post, by simp [heq], hmap⟩
      · exact ⟨c :: pre, mid, post, by simp [heq], hmap⟩
    · rintro ⟨pre, mid, post, heq, hmap⟩
      cases pre with
      | nil => exact Or.inl ⟨mid, post, by simpa using heq, hmap⟩
      | cons p ps =>
        rw [List.cons_append, List.cons_append] at heq
        injection heq with hc hcs
        exact Or.inr ⟨ps, mid, post, hcs, hmap⟩

theorem data_nil_iff (s : String) : s.data = [] ↔ s = "" := by
  constructor
  · intro h
    cases s with
    | mk d =>
      simp only at h
      cases h
      rfl
  · intro h
    rw [h]

theorem containsCI_iff (hay needle : String) (hne : needle ≠ "") :
    ContainsCaseInsensitive hay needle = true ↔ CISubstr hay needle := by
  unfold ContainsCaseInsensitive
  rw [if_neg hne]
  split
  · rename_i hh
    constructor
    · intro hfalse
      simp at hfalse
    · rintro ⟨pre, mid, post, heq, hmap⟩
      rw [hh] at heq
      have h0 := heq.symm
      simp only [List.append_eq_nil] at h0
      have hmid : mid = [] := h0.1.2
      rw [hmid] at hmap
      have : needle.data = [] := by
        have := hmap.symm
        simp only [List.map_nil] at this
        exact List.map_eq_nil_iff.mp this
      exact absurd ((data_nil_iff needle).mp this) hne
  · exact ciContains_iff hay.data needle.data

theorem ciContains_congr (h n n' : List Char) (hl : n.map cLower = n'.map cLower) :
    ciContains h n = ciContains h n' := by
  cases hc : ciContains h n
  · cases hc' : ciContains h n'
    · rfl
    · exfalso
      obtain ⟨pre, mid, post, heq, hmap⟩ := (ciContains_iff h n').mp hc'
      have hn : ciContains h n = true :=
        (ciContains_iff h n).mpr ⟨pre, mid, post, heq, hmap.trans hl.symm⟩
      rw [hc] at hn
      exact Bool.false_ne_true hn
  · obtain ⟨pre, mid, post, heq, hmap⟩ := (ciContains_iff h n).mp hc
    exact ((ciContains_iff h n').mpr ⟨pre, mid, post, heq, hmap.trans hl⟩).symm

/-! ### Claim C6 — text filter semantics -/

/-- C6 (corrected): a record survives the text filter iff the search text
is empty or occurs case-insensitively in the record's RAW name (`GetName`),
not its display name; and search texts equal up to ASCII case (e.g. `cam`
and `CAM`) select exactly the same records. -/
theorem matches_search_name_ci (g : Graph) (it : SourceItem) (st st' : String)
    (hlow : st.data.map cLower = st'.data.map cLower) :
    (MatchesSearch g it st = true ↔ (st = "" ∨ CISubstr (GetName g it) st)) ∧
    MatchesSearch g it st = MatchesSearch g it st' := by
  have hemp : (st = "") ↔ (st' = "") := by
    constructor
    · intro h
      rw [h] at hlow
      simp only [show ("" : String).data = [] from rfl, List.map_nil] at hlow
      exact (data_nil_iff st').mp (List.map_eq_nil_iff.mp hlow.symm)
    · intro h
      rw [h] at hlow
      simp only [show ("" : String).data = [] from rfl, List.map_nil] at hlow
      exact (data_nil_iff st).mp (List.map_eq_nil_iff.mp hlow)
  constructor
  · unfold MatchesSearch
    by_cases hst : st = ""
    · simp [hst]
    · rw [if_neg hst, containsCI_iff _ _ hst]
      simp [hst]
  · unfold MatchesSearch
    by_cases hst : st = ""
    · rw [if_pos hst, if_pos (hemp.mp hst)]
    · rw [if_neg hst, if_neg (fun h => hst (hemp.mpr h))]
      unfold ContainsCaseInsensitive
      rw [if_neg hst, if_neg (fun h => hst (hemp.mpr h))]
      by_cases hhay : GetName g it = ""
      · rw [if_pos hhay, if_pos hhay]
      · rw [if_neg hhay, if_neg hhay]
        exact ciContains_congr _ _ _ hlow

/-- Witness for C6: the record named `Cam1` matches `cam`, and `cam` and
`CAM` agree on it. -/
theorem matches_search_name_ci_witness :
    MatchesSearch gW camItem "cam" = true ∧
    MatchesSearch gW camItem "cam" = MatchesSearch gW camItem "CAM" :=
  ⟨(matches_search_name_ci gW camItem "cam" "CAM" (by decide)).1.mpr
      (Or.inr ⟨[], ['C', 'a', 'm'], ['1'], by decide, by decide⟩),
   (matches_search_name_ci gW camItem "cam" "CAM" (by decide)).2⟩

/-! ### Invariant preservation through the build passes -/

theorem classify_eq_filter_iff (s : ObsSource) :
    classify s = SourceClass.Filter ↔ s.stype = ObsSourceType.filter := by
  unfold classify
  split_ifs <;> simp_all

theorem CInv_pushNew (g : Graph) (c : SourceCollection) (item : SourceItem)
    (s : ObsSource) (typeId : String)
    (hres : g.objs item.weakSource = some s)
    (hclass : item.sourceClass = classify s)
    (hname : s.name.getD "" ≠ "")
    (hpar : item.parentScenes = [])
    (hdup : ∀ u, s.uuid = some u → lookupIdx c.sourcesByUUID u = none)
    (hinv : CInv g c) :
    CInv g (pushNew g c item s.uuid typeId) := by
  have hsrc : srcUuid g item = s.uuid := by
    simp [srcUuid, GetSource, hres]
  have hsources : (pushNew g c item s.uuid typeId).sources = c.sources ++ [item] := rfl
  have hmapLe : ∀ u v, lookupIdx c.sourcesByUUID u = some v →
      lookupIdx (pushNew g c item s.uuid typeId).sourcesByUUID u = some v := by
    intro u v h
    cases huu : s.uuid with
    | none => simpa [pushNew, huu] using h
    | some u0 =>
      show lookupIdx (c.sourcesByUUID ++ [(u0, c.sources.length)]) u = some v
      exact lookupIdx_append_some h
  refine ⟨?_, ?_, ?_, ?_, ?_⟩
  · -- resolve
    intro it hit
    rw [hsources] at hit
    rcases List.mem_append.mp hit with h | h
    · exact hinv.resolve it h
    · have heq : it = item := by simpa using h
      subst heq
      exact ⟨s, hres, hclass, hname⟩
  · -- recorded
    intro it hit u hu
    rw [hsources] at hit
    rcases List.mem_append.mp hit with h | h
    · have hold := hinv.recorded it h u hu
      rcases Option.ne_none_iff_exists.mp hold with ⟨v, hv⟩
      rw [hmapLe u v hv.symm]
      simp
    · have heq : it = item := by simpa using h
      rw [heq, hsrc] at hu
      show lookupIdx (pushNew g c item s.uuid typeId).sourcesByUUID u ≠ none
      rw [hu]
      show lookupIdx (c.sourcesByUUID ++ [(u, c.sources.length)]) u ≠ none
      cases hold : lookupIdx c.sourcesByUUID u with
      | some v => rw [lookupIdx_append_some hold]; simp
      | none =>
        rw [lookupIdx_append_none hold]
        simp [lookupIdx]
  · -- mapOK
    intro u idx h
    cases huu : s.uuid with
    | none =>
      have h' : lookupIdx c.sourcesByUUID u = some idx := by
        simpa [pushNew, huu] using h
      obtain ⟨it, hget, hu⟩ := hinv.mapOK u idx h'
      refine ⟨it, ?_, hu⟩
      show (c.sources ++ [item]).get? idx = some it
      rw [get?_append_left _ _ _ (get?_some_lt _ _ _ hget)]
      exact hget
    | some u0 =>
      have h' : lookupIdx (c.sourcesByUUID ++ [(u0, c.sources.length)]) u = some idx := by
        simpa [pushNew, huu] using h
      cases hold : lookupIdx c.sourcesByUUID u with
      | some v =>
        rw [lookupIdx_append_some hold] at h'
        have hvidx : v = idx := Option.some.inj h'
        obtain ⟨it, hget, hu⟩ := hinv.mapOK u v hold
        refine ⟨it, ?_, hu⟩
        show (c.sources ++ [item]).get? idx = some it
        rw [← hvidx, get?_append_left _ _ _ (get?_some_lt _ _ _ hget)]
        exact hget
      | none =>
        rw [lookupIdx_append_none hold] at h'
        simp only [lookupIdx] at h'
        split at h'
        · rename_i hu0
          refine ⟨item, ?_, ?_⟩
          · show (c.sources ++ [item]).get? idx = some item
            have hidx : c.sources.length = idx := Option.some.inj h'
            rw [← hidx]
            exact get?_length_append c.sources item
          · rw [hsrc, huu]
            exact congrArg some hu0
        · exact absurd h' (by simp)
  · -- distinct
    rw [hsources, List.map_append]
    rw [List.pairwise_append]
    refine ⟨hinv.distinct, by simp, ?_⟩
    intro a ha b hb u hau hbu
    simp only [List.map_cons, List.map_nil, List.mem_cons] at hb
    rcases hb with rfl | hb
    · rw [hsrc] at hbu
      have := hdup u hbu
      obtain ⟨it0, hit0, ha0⟩ := List.mem_map.mp ha
      rw [← ha0] at hau
      exact hinv.recorded it0 hit0 u hau this
    · simp at hb
  · -- noParents
    intro it hit
    rw [hsources] at hit
    rcases List.mem_append.mp hit with h | h
    · exact hinv.noParents it h
    · have heq : it = item := by simpa using h
      subst heq
      exact hpar

theorem AddSource_cases (g : Graph) (c : SourceCollection) (p : Nat) :
    AddSource g c p = c ∨
    ∃ s typeId, g.objs p = some s ∧ s.typeId = some typeId ∧
      ¬ (s.stype = ObsSourceType.filter ∨ s.stype = ObsSourceType.transition) ∧
      s.name.getD "" ≠ "" ∧
      (∀ u, s.uuid = some u → lookupIdx c.sourcesByUUID u = none) ∧
      AddSource g c p = pushNew g c (mkSourceItem p s) s.uuid typeId := by
  unfold AddSource
  split
  · exact Or.inl rfl
  rename_i s hs
  split
  · exact Or.inl rfl
  rename_i hstype
  split
  · exact Or.inl rfl
  rename_i hname
  split
  · exact Or.inl rfl
  rename_i typeId htid
  split
  · exact Or.inl rfl
  split
  · exact Or.inl rfl
  split
  · exact Or.inl rfl
  split
  · exact Or.inl rfl
  split
  · exact Or.inl rfl
  rename_i hdup
  split
  · refine Or.inr ⟨s, typeId, hs, htid, hstype, hname, ?_, rfl⟩
    intro u hu
    rw [hu] at hdup
    cases h : lookupIdx c.sourcesByUUID u with
    | none => rfl
    | some v =>
      exfalso
      apply hdup
      show (lookupIdx c.sourcesByUUID u).isSome = true
      rw [h]
      rfl
  · exact Or.inl rfl

theorem AddFilter_cases (g : Graph) (c : SourceCollection) (p : Nat) (parentName : String) :
    AddFilter g c p parentName = c ∨
    ∃ s typeId, g.objs p = some s ∧ s.typeId = some typeId ∧
      s.name.getD "" ≠ "" ∧ typeId ≠ "audio_monitor" ∧
      (∀ u, s.uuid = some u → lookupIdx c.sourcesByUUID u = none) ∧
      AddFilter g c p parentName =
        pushNew g c { mkSourceItem p s with parentSourceName := parentName } s.uuid typeId := by
  unfold AddFilter
  split
  · exact Or.inl rfl
  rename_i s hs
  split
  · exact Or.inl rfl
  rename_i hname
  split
  · exact Or.inl rfl
  rename_i typeId htid
  split
  · exact Or.inl rfl
  rename_i hmon
  split
  · exact Or.inl rfl
  rename_i hdup
  split
  · refine Or.inr ⟨s, typeId, hs, htid, hname, hmon, ?_, rfl⟩
    intro u hu
    rw [hu] at hdup
    cases h : lookupIdx c.sourcesByUUID u with
    | none => rfl
    | some v =>
      exfalso
      apply hdup
      show (lookupIdx c.sourcesByUUID u).isSome = true
      rw [h]
      rfl
  · exact Or.inl rfl

theorem CInv_AddSource (g : Graph) (c : SourceCollection) (p : Nat)
    (hinv : CInv g c) : CInv g (AddSource g c p) := by
  rcases AddSource_cases g c p with h | ⟨s, typeId, hs, htid, hstype, hname, hdup, heq⟩
  · rw [h]
    exact hinv
  · rw [heq]
    exact CInv_pushNew g c (mkSourceItem p s) s typeId hs rfl hname rfl hdup hinv

theorem CInv_AddFilter (g : Graph) (c : SourceCollection) (p : Nat) (parentName : String)
    (hinv : CInv g c) : CInv g (AddFilter g c p parentName) := by
  rcases AddFilter_cases g c p parentName with h | ⟨s, typeId, hs, htid, hname, hmon, hdup, heq⟩
  · rw [h]
    exact hinv
  · rw [heq]
    exact CInv_pushNew g c { mkSourceItem p s with parentSourceName := parentName }
      s typeId hs rfl hname rfl hdup hinv

theorem Pass1_AddSource (g : Graph) (c : SourceCollection) (p : Nat)
    (h : Pass1Extra c) : Pass1Extra (AddSource g c p) := by
  rcases AddSource_cases g c p with heq | ⟨s, typeId, hs, htid, hstype, hname, hdup, heq⟩
  · rw [heq]
    exact h
  · rw [heq]
    intro it hit
    have hit' : it ∈ c.sources ++ [mkSourceItem p s] := hit
    rcases List.mem_append.mp hit' with hm | hm
    · exact h it hm
    · have heqit : it = mkSourceItem p s := by simpa using hm
      subst heqit
      refine ⟨?_, rfl⟩
      show classify s ≠ SourceClass.Filter
      rw [Ne, classify_eq_filter_iff]
      intro hf
      exact hstype (Or.inl hf)

theorem PsnIff_AddFilter (g : Graph) (c : SourceCollection) (p : Nat) (parentName : String)
    (hpn : parentName ≠ "")
    (hft : ∀ t, g.objs p = some t → t.stype = ObsSourceType.filter)
    (h : PsnIff c) : PsnIff (AddFilter g c p parentName) := by
  rcases AddFilter_cases g c p parentName with heq | ⟨s, typeId, hs, htid, hname, hmon, hdup, heq⟩
  · rw [heq]
    exact h
  · rw [heq]
    intro it hit
    have hit' : it ∈ c.sources ++ [{ mkSourceItem p s with parentSourceName := parentName }] := hit
    rcases List.mem_append.mp hit' with hm | hm
    · exact h it hm
    · have heqit : it = { mkSourceItem p s with parentSourceName := parentName } := by
        simpa using hm
      subst heqit
      constructor
      · intro _
        show classify s = SourceClass.Filter
        rw [classify_eq_filter_iff]
        exact hft s hs
      · intro _
        exact hpn

theorem LinkFilters_preserve (P : SourceCollection → Prop) (g : Graph) (c : SourceCollection)
    (step : ∀ c' it, it ∈ c.sources → ∀ q, q ∈ g.filters it.weakSource →
      P c' → P (AddFilter g c' q (GetName g it)))
    (hc : P c) : P (LinkFilters g c) := by
  unfold LinkFilters
  refine foldl_preserve P _ _ ?_ c hc
  intro b it hit hb
  split
  · exact hb
  · exact foldl_preserve P _ _ (fun b2 q hq hb2 => step b2 it hit q hq hb2) b hb

theorem linkChildren_pres (P : SourceCollection → Prop) (g : Graph) (sceneName : String)
    (kids : List Nat) (c : SourceCollection)
    (step : ∀ c' q t u idx, q ∈ kids → g.objs q = some t → t.uuid = some u →
      lookupIdx c'.sourcesByUUID u = some idx → P c' →
      P { c' with sources := modifyIdx (AddParentScene sceneName) c'.sources idx })
    (hc : P c) : P (linkChildren g sceneName kids c) := by
  unfold linkChildren
  refine foldl_preserve P _ _ ?_ c hc
  intro b q hq hb
  split
  · exact hb
  rename_i t ht
  split
  · exact hb
  rename_i u hu
  split
  · exact hb
  rename_i idx hidx
  exact step b q t u idx hq ht hu hidx hb

theorem LinkSceneItems_pres (P : SourceCollection → Prop) (g : Graph) (c : SourceCollection)
    (step : ∀ c' p q t u idx (n : String), q ∈ g.children p → g.objs q = some t →
      t.uuid = some u → lookupIdx c'.sourcesByUUID u = some idx → P c' →
      P { c' with sources := modifyIdx (AddParentScene n) c'.sources idx })
    (hc : P c) : P (LinkSceneItems g c) := by
  unfold LinkSceneItems
  refine foldl_preserve P _ _ ?_ c hc
  intro b i hi hb
  split
  · exact hb
  rename_i it hit
  split
  · split
    · exact hb
    · split
      · refine linkChildren_pres P g (GetName g it) (g.children it.weakSource) b ?_ hb
        intro c' q t u idx hq ht hu hidx hc'
        exact step c' it.weakSource q t u idx (GetName g it) hq ht hu hidx hc'
      · exact hb
  · exact hb

theorem CInv_clear (g : Graph) (c : SourceCollection) : CInv g (Clear c) := by
  refine ⟨?_, ?_, ?_, ?_, ?_⟩
  · intro it hit
    simp [Clear] at hit
  · intro it hit
    simp [Clear] at hit
  · intro u idx h
    simp [Clear, lookupIdx] at h
  · simp [Clear]
  · intro it hit
    simp [Clear] at hit

theorem CInv_pass1 (g : Graph) (c0 : SourceCollection) :
    CInv g (g.topLevel.foldl (AddSource g) (Clear c0)) :=
  foldl_preserve (CInv g) _ _ (fun b a _ hb => CInv_AddSource g b a hb) _ (CInv_clear g c0)

theorem CInv_pass2 (g : Graph) (c0 : SourceCollection) :
    CInv g (LinkFilters g (g.topLevel.foldl (AddSource g) (Clear c0))) :=
  LinkFilters_preserve (CInv g) g _
    (fun c' it _ q _ h => CInv_AddFilter g c' q (GetName g it) h)
    (CInv_pass1 g c0)

theorem LinkSceneItems_map_srcUuid (g : Graph) (c : SourceCollection) :
    (LinkSceneItems g c).sources.map (srcUuid g) = c.sources.map (srcUuid g) := by
  refine LinkSceneItems_pres
    (fun c' => c'.sources.map (srcUuid g) = c.sources.map (srcUuid g)) g c ?_ rfl
  intro c' p q t u idx n _ _ _ _ h
  show (modifyIdx (AddParentScene n) c'.sources idx).map (srcUuid g) = _
  rw [modifyIdx_map (AddParentScene n) (srcUuid g) (fun x => rfl) c'.sources idx]
  exact h

/-! ### Claim C1 — identity uniqueness -/

/-- C1 (corrected): in every snapshot produced by `Refresh`, no two records
whose host objects report a NON-NULL identity share that identity; objects
whose host-reported identity is null bypass the duplicate check and are
added unconditionally. -/
theorem refresh_identity_unique (g : Graph) (c0 : SourceCollection) :
    ((Refresh g c0).sources.map (srcUuid g)).Pairwise
      (fun a b => ∀ u, a = some u → b ≠ some u) := by
  unfold Refresh
  rw [LinkSceneItems_map_srcUuid]
  exact (CInv_pass2 g c0).distinct

/-! ### Claim C4 — attachment name iff Effect classification -/

theorem PsnIff_modify (c : SourceCollection) (n : String) (idx : Nat)
    (h : PsnIff c) :
    PsnIff { c with sources := modifyIdx (AddParentScene n) c.sources idx } := by
  intro it hit
  have hit' : it ∈ modifyIdx (AddParentScene n) c.sources idx := hit
  rcases mem_modifyIdx _ _ _ _ hit' with hmem | ⟨y, hy, rfl⟩
  · exact h it hmem
  · exact h y (get?_mem' _ _ _ hy)

/-- C4 (confirmed): in every snapshot built against a host graph whose
filter enumeration yields filter-type objects, a record's attachment name
(`parentSourceName`) is non-empty exactly when the record is classified
`Filter`. -/
theorem refresh_attached_iff_filter (g : Graph)
    (hwf : ∀ p q, q ∈ g.filters p → ∀ t, g.objs q = some t →
      t.stype = ObsSourceType.filter)
    (c0 : SourceCollection) :
    ∀ it ∈ (Refresh g c0).sources,
      (it.parentSourceName ≠ "" ↔ it.sourceClass = SourceClass.Filter) := by
  have hp1inv : CInv g (g.topLevel.foldl (AddSource g) (Clear c0)) := CInv_pass1 g c0
  have hp1 : Pass1Extra (g.topLevel.foldl (AddSource g) (Clear c0)) :=
    foldl_preserve Pass1Extra _ _ (fun b a _ hb => Pass1_AddSource g b a hb) _
      (fun it hit => by simp [Clear] at hit)
  have hpsn1 : PsnIff (g.topLevel.foldl (AddSource g) (Clear c0)) := by
    intro it hit
    obtain ⟨hnf, hpsn⟩ := hp1 it hit
    constructor
    · intro hne
      exact absurd hpsn hne
    · intro hf
      exact absurd hf hnf
  have hpsn2 : PsnIff (LinkFilters g (g.topLevel.foldl (AddSource g) (Clear c0))) := by
    refine LinkFilters_preserve PsnIff g _ ?_ hpsn1
    intro c' it hit q hq hP
    have hname : GetName g it ≠ "" := by
      obtain ⟨s, hs, -, hn⟩ := hp1inv.resolve it hit
      simpa [GetName, GetSource, hs] using hn
    exact PsnIff_AddFilter g c' q (GetName g it) hname (hwf it.weakSource q hq) hP
  unfold Refresh
  exact LinkSceneItems_pres PsnIff g _
    (fun c' p q t u idx n _ _ _ _ h => PsnIff_modify c' n idx h) hpsn2

/-- Witness for C4 on the concrete graph `gW`: the `Blur` record. -/
theorem refresh_attached_iff_filter_witness :
    blurItem ∈ (Refresh gW cE).sources ∧
    (blurItem.parentSourceName ≠ "" ↔ blurItem.sourceClass = SourceClass.Filter) :=
  ⟨by decide,
   refresh_attached_iff_filter gW
     (by
       intro p q hq t ht
       have hf : gW.filters p = if p = 2 then [10] else [] := rfl
       rw [hf] at hq
       split at hq
       · simp only [List.mem_singleton] at hq
         subst hq
         have h10 : gW.objs 10 = some blurSrc := rfl
         rw [h10] at ht
         cases ht
         rfl
       · simp at hq)
     cE blurItem (by decide)⟩

/-! ### Claim C5 — effects keep an empty parent-container set -/

theorem LinkInv_modify_step (g : Graph)
    (hkids : ∀ p q, q ∈ g.children p → ∀ t, g.objs q = some t →
      t.stype ≠ ObsSourceType.filter)
    (hinj : ∀ p q s t u, g.objs p = some s → g.objs q = some t →
      s.uuid = some u → t.uuid = some u → p = q) :
    ∀ (c' : SourceCollection) (p q : Nat) (t : ObsSource) (u : String)
      (idx : Nat) (n : String),
      q ∈ g.children p → g.objs q = some t → t.uuid = some u →
      lookupIdx c'.sourcesByUUID u = some idx → LinkInv g c' →
      LinkInv g { c' with sources := modifyIdx (AddParentScene n) c'.sources idx } := by
  intro c' p q t u idx n hq ht hu hidx hI
  obtain ⟨hres, hmap, hQ⟩ := hI
  obtain ⟨it0, hget, hsu⟩ := hmap u idx hidx
  obtain ⟨s, hs, hcls⟩ := hres it0 (get?_mem' _ _ _ hget)
  have hsuuid : s.uuid = some u := by
    have hx : (g.objs it0.weakSource).bind ObsSource.uuid = some u := hsu
    rw [hs] at hx
    simpa using hx
  have hpq : it0.weakSource = q := hinj it0.weakSource q s t u hs ht hsuuid hu
  have hst : s = t := by
    rw [hpq] at hs
    exact Option.some.inj (hs.symm.trans ht)
  have hnotf : it0.sourceClass ≠ SourceClass.Filter := by
    rw [hcls, hst, Ne, classify_eq_filter_iff]
    exact hkids p q hq t ht
  refine ⟨?_, ?_, ?_⟩
  · intro it hit
    have hit' : it ∈ modifyIdx (AddParentScene n) c'.sources idx := hit
    rcases mem_modifyIdx _ _ _ _ hit' with hmem | ⟨y, hy, rfl⟩
    · exact hres it hmem
    · obtain ⟨s2, hs2, hc2⟩ := hres y (get?_mem' _ _ _ hy)
      exact ⟨s2, hs2, hc2⟩
  · intro u2 idx2 h2
    have h2' : lookupIdx c'.sourcesByUUID u2 = some idx2 := h2
    obtain ⟨it2, hget2, hsu2⟩ := hmap u2 idx2 h2'
    show ∃ it, (modifyIdx (AddParentScene n) c'.sources idx).get? idx2 = some it ∧
      srcUuid g it = some u2
    rw [get?_modifyIdx]
    split
    · refine ⟨AddParentScene n it2, ?_, hsu2⟩
      rw [hget2]
      rfl
    · exact ⟨it2, hget2, hsu2⟩
  · intro it hit hfil
    have hit' : it ∈ modifyIdx (AddParentScene n) c'.sources idx := hit
    rcases mem_modifyIdx _ _ _ _ hit' with hmem | ⟨y, hy, rfl⟩
    · exact hQ it hmem hfil
    · have hyit0 : y = it0 := by
        rw [hget] at hy
        exact (Option.some.inj hy).symm
      subst hyit0
      exact absurd hfil hnotf

/-- C5 (corrected): after the relationship-linking pass, Effect (filter)
records still have an empty parent-container set (under the host
guarantees that scene children are never filter-type objects and UUIDs are
unique per object); but Container (scene) and ContainerGroup (group)
records DO acquire parent container names whenever they appear as direct
children of another container — the linking pass does not restrict parent
attachment to Plain records. -/
theorem refresh_effect_parents_empty (g : Graph)
    (hkids : ∀ p q, q ∈ g.children p → ∀ t, g.objs q = some t →
      t.stype ≠ ObsSourceType.filter)
    (hinj : ∀ p q s t u, g.objs p = some s → g.objs q = some t →
      s.uuid = some u → t.uuid = some u → p = q)
    (c0 : SourceCollection) :
    ∀ it ∈ (Refresh g c0).sources,
      it.sourceClass = SourceClass.Filter → it.parentScenes = [] := by
  have hinv2 := CInv_pass2 g c0
  have hstart : LinkInv g (LinkFilters g (g.topLevel.foldl (AddSource g) (Clear c0))) := by
    refine ⟨?_, hinv2.mapOK, ?_⟩
    · intro it hit
      obtain ⟨s, hs, hc, -⟩ := hinv2.resolve it hit
      exact ⟨s, hs, hc⟩
    · intro it hit _
      exact hinv2.noParents it hit
  unfold Refresh
  exact (LinkSceneItems_pres (LinkInv g) g _
    (fun c' p q t u idx n hq ht hu hidx h =>
      LinkInv_modify_step g hkids hinj c' p q t u idx n hq ht hu hidx h) hstart).2.2

theorem gWobjs_cases (r : Nat) (x : ObsSource) (h : gWobjs r = some x) :
    (r = 1 ∧ x = mainSceneSrc) ∨ (r = 2 ∧ x = camSrc) ∨ (r = 10 ∧ x = blurSrc) := by
  unfold gWobjs at h
  split_ifs at h with h1 h2 h3
  · exact Or.inl ⟨h1, (Option.some.inj h).symm⟩
  · exact Or.inr (Or.inl ⟨h2, (Option.some.inj h).symm⟩)
  · exact Or.inr (Or.inr ⟨h3, (Option.some.inj h).symm⟩)

theorem gW_uuid_inj : ∀ p q s t u, gW.objs p = some s → gW.objs q = some t →
    s.uuid = some u → t.uuid = some u → p = q := by
  intro p q s t u hp hq hsu htu
  have hp' : gWobjs p = some s := hp
  have hq' : gWobjs q = some t := hq
  rcases gWobjs_cases p s hp' with ⟨rfl, rfl⟩ | ⟨rfl, rfl⟩ | ⟨rfl, rfl⟩ <;>
    rcases gWobjs_cases q t hq' with ⟨rfl, rfl⟩ | ⟨rfl, rfl⟩ | ⟨rfl, rfl⟩ <;>
      first
        | rfl
        | exact absurd ((Option.some.inj hsu).trans (Option.some.inj htu).symm) (by decide)

theorem gW_children_wf : ∀ p q, q ∈ gW.children p → ∀ t, gW.objs q = some t →
    t.stype ≠ ObsSourceType.filter := by
  intro p q hq t ht
  have hc : gW.children p = if p = 1 then [2] else [] := rfl
  rw [hc] at hq
  split at hq
  · simp only [List.mem_singleton] at hq
    subst hq
    have h2 : gW.objs 2 = some camSrc := rfl
    rw [h2] at ht
    cases ht
    simp [camSrc]
  · simp at hq

/-- Witness for C5: the `Blur` filter record of `gW` keeps an empty parent
set after the full refresh. -/
theorem refresh_effect_parents_empty_witness :
    blurItem ∈ (Refresh gW cE).sources ∧ blurItem.sourceClass = SourceClass.Filter ∧
    blurItem.parentScenes = [] :=
  ⟨by decide, rfl,
   refresh_effect_parents_empty gW gW_children_wf gW_uuid_inj cE blurItem (by decide) rfl⟩

/-! ### Claim C3 — effects pass checks -/

/-- C3 (corrected): the effects pass (`AddFilter`) rejects an effect
exactly when its name is missing/empty, its type tag is missing or
`audio_monitor`, or its identity is already recorded — it does NOT apply
the `_wrapper_`/`(Stinger)`/`audio_line` exclusions of the first pass.  An
effect passing these checks is appended with `attachedToName` set to the
parent name handed over by the filters pass (the parent's raw name), and
it is classified Effect whenever the host object is filter-typed. -/
theorem addFilter_checks_parity (g : Graph) (c : SourceCollection) (p : Nat)
    (parent : String) (s : ObsSource) (h : g.objs p = some s) :
    ((s.name.getD "" = "" ∨ s.typeId = none ∨ s.typeId = some "audio_monitor" ∨
      (∃ u, s.uuid = some u ∧ lookupIdx c.sourcesByUUID u ≠ none)) →
        AddFilter g c p parent = c)
  ∧ ((s.name.getD "" ≠ "" ∧ s.typeId ≠ none ∧ s.typeId ≠ some "audio_monitor" ∧
      (∀ u, s.uuid = some u → lookupIdx c.sourcesByUUID u = none)) →
        (AddFilter g c p parent).sources =
          c.sources ++ [{ mkSourceItem p s with parentSourceName := parent }])
  ∧ (s.stype = ObsSourceType.filter →
      ({ mkSourceItem p s with parentSourceName := parent } : SourceItem).sourceClass
        = SourceClass.Filter) := by
  refine ⟨?_, ?_, ?_⟩
  · intro hrej
    rcases AddFilter_cases g c p parent with heq | ⟨s', typeId, hs', htid, hname, hmon, hdup, heq⟩
    · exact heq
    · exfalso
      have hss : s' = s := Option.some.inj (hs'.symm.trans h)
      subst hss
      rcases hrej with h1 | h1 | h1 | ⟨u, hu, hl⟩
      · exact hname h1
      · rw [htid] at h1
        exact Option.noConfusion h1
      · rw [htid] at h1
        exact hmon (Option.some.inj h1)
      · exact hl (hdup u hu)
  · intro hpass
    obtain ⟨h1, h2, h3, h4⟩ := hpass
    cases hti : s.typeId with
    | none => exact absurd hti h2
    | some typeId =>
      have htm : typeId ≠ "audio_monitor" := by
        intro hh
        exact h3 (by rw [hti, hh])
      have hdupf : (match s.uuid with
          | some u => (lookupIdx c.sourcesByUUID u).isSome
          | none => false) = false := by
        cases huu : s.uuid with
        | none => rfl
        | some u =>
          show (lookupIdx c.sourcesByUUID u).isSome = false
          rw [h4 u huu]
          rfl
      unfold AddFilter
      rw [h]
      simp only [if_neg h1, hti, if_neg htm, hdupf, Bool.false_eq_true, if_false,
        h, Option.isSome_some, if_true]
      rfl
  · intro hf
    show classify s = SourceClass.Filter
    rw [classify_eq_filter_iff]
    exact hf

/-- Witness for C3: the `Blur` filter of `gW` passes the effects-pass
checks and is appended with attachment name `Cam1`. -/
theorem addFilter_checks_parity_witness :
    (AddFilter gW cE 10 "Cam1").sources =
      cE.sources ++ [{ mkSourceItem 10 blurSrc with parentSourceName := "Cam1" }] :=
  (addFilter_checks_parity gW cE 10 "Cam1" blurSrc rfl).2.1
    ⟨by decide, by decide, by decide, fun u _ => rfl⟩
